import Mathlib

/-!
Shallow embedding of the collation logic in
`src/pytorch/1.dataloader_collate_fn.ipynb`.

The notebook defines two user-level collation callbacks:

  def custom_collate(batch):
      if isinstance(batch, list) and len(batch[0]) == 2 and isinstance(batch[0][1], dict):
          imgs = torch.stack([img for img, target in batch])
          targets = [target for img, target in batch]
          return imgs, targets
      else:  # Fall back to default_collate
          return torch.utils.data.default_collate(batch)

  def custom_detection_collate(batch):
      if isinstance(batch, list) and len(batch[0]) == 2 and isinstance(batch[0][1], dict):
          imgs = [img for img, target in batch]
          targets = [target for img, target in batch]
          return imgs, targets
      else:  # Fall back to default_collate
          return torch.utils.data.default_collate(batch)

Python runtime values are embedded as the inductive `PyVal`; raising an
exception is embedded as returning `Except PyErr _`.  Tensors carry a
shape (list of dimension sizes) and a flat list of integer entries; the
claims are about structure and shape, never about tensor arithmetic.
-/

/-- Kinds of Python exceptions the embedded code can raise.  `fuelOut` is
not a Python exception: it is the out-of-fuel marker of the bounded
recursion used to embed the recursive `default_collate`. -/
inductive PyErr where
  | indexError
  | keyError
  | typeError
  | valueError
  | runtimeError
  | fuelOut
deriving Repr, DecidableEq

/-- Python runtime values: tensors (shape plus flat data), ints, strings,
lists, tuples, and string-keyed dicts (insertion-ordered, as in Python). -/
inductive PyVal where
  | tensor (shape : List Nat) (data : List Int)
  | int (n : Int)
  | str (s : String)
  | list (xs : List PyVal)
  | tuple (xs : List PyVal)
  | dict (entries : List (String × PyVal))
deriving Repr

/-- Embedding of `isinstance(v, list)`. -/
def PyVal.isList : PyVal → Bool
  | .list _ => true
  | _ => false

/-- Embedding of `isinstance(v, dict)`. -/
def PyVal.isDict : PyVal → Bool
  | .dict _ => true
  | _ => false

/-- Flat size of a tensor slice of the given shape. -/
def shapeSize (shape : List Nat) : Nat := shape.prod

/-- The `i`-th slice of the flat data of a tensor whose trailing shape is
`shape` (used for `t[i]` and for iterating over a tensor). -/
def tslice (shape : List Nat) (data : List Int) (i : Nat) : List Int :=
  (data.drop (i * shapeSize shape)).take (shapeSize shape)

/-- Embedding of `v[i]` for an integer index `i`: sequence indexing with
IndexError past the end; a string-keyed dict raises KeyError on an integer
key; `len`-less scalars raise TypeError. -/
def pyIndex (v : PyVal) (i : Nat) : Except PyErr PyVal :=
  match v with
  | .list xs =>
    match xs.get? i with
    | some x => .ok x
    | none => .error .indexError
  | .tuple xs =>
    match xs.get? i with
    | some x => .ok x
    | none => .error .indexError
  | .str s =>
    match s.data.get? i with
    | some c => .ok (.str (String.mk [c]))
    | none => .error .indexError
  | .tensor [] _ => .error .indexError
  | .tensor (d :: rest) data =>
    if i < d then .ok (.tensor rest (tslice rest data i)) else .error .indexError
  | .dict _ => .error .keyError
  | .int _ => .error .typeError

/-- Embedding of `len(v)`: length of sequences and dicts, leading dimension
of a tensor; ints and zero-dimensional tensors raise TypeError. -/
def pyLen (v : PyVal) : Except PyErr Nat :=
  match v with
  | .list xs => .ok xs.length
  | .tuple xs => .ok xs.length
  | .str s => .ok s.length
  | .dict es => .ok es.length
  | .tensor [] _ => .error .typeError
  | .tensor (d :: _) _ => .ok d
  | .int _ => .error .typeError

/-- Embedding of iterating over `v` (as in `zip(*batch)` or a
comprehension): lists and tuples yield their elements, strings their
characters, dicts their keys, tensors their leading-dimension slices. -/
def pyToList (v : PyVal) : Except PyErr (List PyVal) :=
  match v with
  | .list xs => .ok xs
  | .tuple xs => .ok xs
  | .str s => .ok (s.data.map fun c => .str (String.mk [c]))
  | .dict es => .ok (es.map fun e => .str e.1)
  | .tensor [] _ => .error .typeError
  | .tensor (d :: rest) data =>
    .ok ((List.range d).map fun i => .tensor rest (tslice rest data i))
  | .int _ => .error .typeError

/-- Embedding of `d[key]` for a string key: dict lookup with KeyError when
absent; any non-dict raises TypeError for a string subscript. -/
def pyDictGet (v : PyVal) (k : String) : Except PyErr PyVal :=
  match v with
  | .dict es =>
    match es.lookup k with
    | some x => .ok x
    | none => .error .keyError
  | _ => .error .typeError

/-- Embedding of the tuple unpacking `img, target = sample` performed by the
comprehensions `[img for img, target in batch]`: any iterable of exactly two
elements unpacks; other lengths raise ValueError, non-iterables TypeError. -/
def pyUnpack2 (v : PyVal) : Except PyErr (PyVal × PyVal) :=
  match v with
  | .tuple [a, b] => .ok (a, b)
  | .tuple _ => .error .valueError
  | .list [a, b] => .ok (a, b)
  | .list _ => .error .valueError
  | .str s =>
    match s.data with
    | [c1, c2] => .ok (.str (String.mk [c1]), .str (String.mk [c2]))
    | _ => .error .valueError
  | .dict [(k1, _), (k2, _)] => .ok (.str k1, .str k2)
  | .dict _ => .error .valueError
  | .tensor [] _ => .error .typeError
  | .tensor (d :: rest) data =>
    if d = 2 then .ok (.tensor rest (tslice rest data 0), .tensor rest (tslice rest data 1))
    else .error .valueError
  | .int _ => .error .typeError

/-- Error-propagating map over a list, the embedding of a Python list
comprehension: the first exception raised while processing an element
aborts the whole comprehension. -/
def emap (g : α → Except PyErr β) : List α → Except PyErr (List β)
  | [] => .ok []
  | x :: xs => do
    let y ← g x
    let ys ← emap g xs
    .ok (y :: ys)

/-- Embedding of `torch.stack(xs)`: every element must be a tensor
(TypeError otherwise) of one common shape (RuntimeError otherwise); the
result gains a new leading batch dimension.  `torch.stack([])` raises
RuntimeError. -/
def torch_stack (xs : List PyVal) : Except PyErr PyVal :=
  match xs with
  | [] => .error .runtimeError
  | .tensor s d :: rest => do
    let ds ← emap
      (fun v => match v with
        | .tensor s' d' => if s' = s then .ok d' else .error .runtimeError
        | _ => .error .typeError)
      rest
    .ok (.tensor ((rest.length + 1) :: s) (d ++ ds.flatten))
  | _ :: _ => .error .typeError

/-- Modelled from the spec: `torch.utils.data.default_collate` (PyTorch
v2.0.1 `collate.py`), the external "default collation resolver" the
notebook links to and falls back on; it is a third-party black box, not
code of this repository.  It inspects the first element of the batch and
recursively stacks same-typed fields across all samples: tensors are
stacked, ints become a 1-D tensor, strings are returned as the original
list, mappings are merged into one mapping whose values are the collation
of the per-sample values key by key, and sequences are transposed
positionally after an equal-length check (RuntimeError on mismatch).
`fuel` bounds the recursion depth of the embedding; the Python original
recurses on strictly smaller values. -/
def default_collate : Nat → PyVal → Except PyErr PyVal
  | 0, _ => .error .fuelOut
  | fuel + 1, batch => do
    let elem ← pyIndex batch 0
    let xs ← pyToList batch
    match elem with
    | .tensor _ _ => torch_stack xs
    | .int _ => do
      let ns ← emap
        (fun v => match v with
          | .int n => .ok n
          | _ => .error .typeError)
        xs
      .ok (.tensor [ns.length] ns)
    | .str _ => .ok batch
    | .dict es => do
      let pairs ← emap
        (fun k => do
          let col ← emap (fun d => pyDictGet d k) xs
          let v ← default_collate fuel (.list col)
          .ok (k, v))
        (es.map Prod.fst)
      .ok (.dict pairs)
    | .tuple es => do
      let lens ← emap pyLen xs
      if lens.all (· == es.length) then do
        let cols ← emap
          (fun j => do
            let col ← emap (fun x => pyIndex x j) xs
            default_collate fuel (.list col))
          (List.range es.length)
        .ok (.tuple cols)
      else .error .runtimeError
    | .list es => do
      let lens ← emap pyLen xs
      if lens.all (· == es.length) then do
        let cols ← emap
          (fun j => do
            let col ← emap (fun x => pyIndex x j) xs
            default_collate fuel (.list col))
          (List.range es.length)
        .ok (.list cols)
      else .error .runtimeError

/-- Embedding of the dispatch test shared verbatim by both callbacks:
`isinstance(batch, list) and len(batch[0]) == 2 and isinstance(batch[0][1], dict)`,
with Python's left-to-right short-circuit evaluation; the subexpressions
`batch[0]`, `len(...)` and `...[1]` can raise. -/
def dispatchCond (batch : PyVal) : Except PyErr Bool :=
  match batch with
  | .list xs => do
    let first ← pyIndex (.list xs) 0
    let n ← pyLen first
    if n = 2 then do
      let s ← pyIndex first 1
      .ok s.isDict
    else .ok false
  | _ => .ok false

/-- Embedding of the comprehension traversal `[... for img, target in batch]`
shared by both callbacks on the custom branch: unpack every sample of the
batch into a pair.  Only reached when `dispatchCond` returned `true`, hence
when the batch is a list. -/
def customBranchPairs (batch : PyVal) : Except PyErr (List (PyVal × PyVal)) :=
  match batch with
  | .list xs => emap pyUnpack2 xs
  | _ => .error .typeError

/-- Embedding of `custom_collate` (notebook section 1.3): on the custom
branch the inputs are stacked with `torch.stack` and the targets collected
into a plain list; otherwise fall back to `default_collate`. -/
def custom_collate (fuel : Nat) (batch : PyVal) : Except PyErr PyVal := do
  if (← dispatchCond batch) then do
    let pairs ← customBranchPairs batch
    let imgs ← torch_stack (pairs.map Prod.fst)
    let targets := pairs.map Prod.snd
    .ok (.tuple [imgs, .list targets])
  else
    default_collate fuel batch

/-- Embedding of `custom_detection_collate` (notebook section 2.3): on the
custom branch both the inputs and the targets are collected into plain
lists; otherwise fall back to `default_collate`. -/
def custom_detection_collate (fuel : Nat) (batch : PyVal) : Except PyErr PyVal := do
  if (← dispatchCond batch) then do
    let pairs ← customBranchPairs batch
    let imgs := pairs.map Prod.fst
    let targets := pairs.map Prod.snd
    .ok (.tuple [.list imgs, .list targets])
  else
    default_collate fuel batch

/-- Batch builder for the theorems: a Python list of 2-tuples. -/
def mkPairBatch (ps : List (PyVal × PyVal)) : PyVal :=
  .list (ps.map fun p => .tuple [p.1, p.2])

/-- Batch builder: a Python list of 2-tuples whose second components are
dicts, given by their entry lists. -/
def mkDictBatch (ps : List (PyVal × List (String × PyVal))) : PyVal :=
  .list (ps.map fun p => .tuple [p.1, .dict p.2])

/-- Batch builder: a Python list of 2-tuples whose first components are
tensors of one common shape `s` and whose second components are dicts. -/
def mkTensorDictBatch (s : List Nat) (ps : List (List Int × List (String × PyVal))) : PyVal :=
  .list (ps.map fun p => .tuple [.tensor s p.1, .dict p.2])

/-- Batch builder: a Python list of 2-tuples whose first components are
tensors of one common shape `s`; second components arbitrary. -/
def mkTensorPairBatch (s : List Nat) (ps : List (List Int × PyVal)) : PyVal :=
  .list (ps.map fun p => .tuple [.tensor s p.1, p.2])

/-- Bind on an `ok` value reduces to applying the continuation. -/
@[simp] theorem okBind (a : α) (f : α → Except PyErr β) :
    ((Except.ok a : Except PyErr α) >>= f) = f a := rfl

/-- Bind on an `error` value short-circuits. -/
@[simp] theorem errBind (e : PyErr) (f : α → Except PyErr β) :
    ((Except.error e : Except PyErr α) >>= f) = Except.error e := rfl

/-- Comprehension over a list all of whose elements succeed. -/
theorem emap_ok (g : α → Except PyErr γ) (h : α → γ) :
    ∀ (l : List α), (∀ a ∈ l, g a = .ok (h a)) → emap g l = .ok (l.map h) := by
  intro l
  induction l with
  | nil => intro _; rfl
  | cons x xs ih =>
    intro H
    simp only [emap, List.map_cons, H x (List.mem_cons_self x xs),
      ih (fun a ha => H a (List.mem_cons_of_mem x ha)), okBind]

/-- Comprehension over a mapped list all of whose elements succeed. -/
theorem emap_map_ok (f : α → β) (g : β → Except PyErr γ) (h : α → γ) :
    ∀ (l : List α), (∀ a ∈ l, g (f a) = .ok (h a)) → emap g (l.map f) = .ok (l.map h) := by
  intro l
  induction l with
  | nil => intro _; rfl
  | cons x xs ih =>
    intro H
    simp only [emap, List.map_cons, H x (List.mem_cons_self x xs),
      ih (fun a ha => H a (List.mem_cons_of_mem x ha)), okBind]

/-- Lookup of a present key in a dict built by tabulating over a key list. -/
theorem lookup_map_self (g : String → PyVal) :
    ∀ (ks : List String) (k : String), k ∈ ks →
      List.lookup k (ks.map fun k2 => (k2, g k2)) = some (g k) := by
  intro ks
  induction ks with
  | nil => intro k hk; cases hk
  | cons a as ih =>
    intro k hk
    by_cases h : k = a
    · subst h; simp [List.lookup]
    · have hb : (k == a) = false := beq_eq_false_iff_ne.mpr h
      rcases List.mem_cons.mp hk with h1 | h2
      · exact absurd h1 h
      · simp only [List.map_cons, List.lookup, hb]
        exact ih k h2

/-- Stacking a non-empty uniform family of tensors of shape `s` yields one
tensor with a new leading batch dimension. -/
theorem torch_stack_map (s : List Nat) (f : α → List Int) (x : α) (xs : List α) :
    torch_stack ((x :: xs).map fun a => .tensor s (f a)) =
      .ok (.tensor ((xs.length + 1) :: s) (f x ++ (xs.map f).flatten)) := by
  have h : emap
      (fun v => match v with
        | .tensor s' d' => if s' = s then .ok d' else .error .runtimeError
        | _ => .error .typeError)
      (xs.map fun a => PyVal.tensor s (f a)) = .ok (xs.map f) :=
    emap_map_ok _ _ _ xs (fun a _ => by simp)
  simp only [List.map_cons, torch_stack, h, okBind, List.length_map]

/-- Characterization of the `isinstance(v, dict)` test. -/
theorem isDict_eq_true_iff (v : PyVal) : v.isDict = true ↔ ∃ es, v = .dict es := by
  cases v <;> simp [PyVal.isDict]

/-- Dispatch takes the custom branch on any list whose head is a 2-tuple
with a dict second component, whatever the remaining samples are. -/
theorem dispatchCond_cons_dict (a : PyVal) (es : List (String × PyVal)) (rest : List PyVal) :
    dispatchCond (.list (.tuple [a, .dict es] :: rest)) = .ok true := rfl

/-- The custom-branch comprehension unpacks a batch of 2-tuples back into
exactly its list of pairs. -/
theorem customBranchPairs_pairBatch (ps : List (PyVal × PyVal)) :
    customBranchPairs (mkPairBatch ps) = .ok ps := by
  simpa [customBranchPairs, mkPairBatch] using
    emap_map_ok (fun p : PyVal × PyVal => PyVal.tuple [p.1, p.2]) pyUnpack2
      (fun p => p) ps (fun p _ => rfl)

/-- Computation of custom_detection_collate on a batch of 2-tuples whose
first sample has a dict second component: the custom branch returns the
original inputs and the original targets as plain lists, in order. -/
theorem custom_detection_collate_custom (fuel : Nat) (a : PyVal) (es : List (String × PyVal))
    (ps : List (PyVal × PyVal)) :
    custom_detection_collate fuel (mkPairBatch ((a, .dict es) :: ps)) =
      .ok (.tuple [.list (((a, .dict es) :: ps).map Prod.fst),
                   .list (((a, .dict es) :: ps).map Prod.snd)]) := by
  have hd : dispatchCond (mkPairBatch ((a, .dict es) :: ps)) = .ok true := rfl
  have hp := customBranchPairs_pairBatch ((a, .dict es) :: ps)
  simp [custom_detection_collate, hd, hp]

/-- Computation of custom_collate on a batch of 2-tuples whose inputs are
tensors of one common shape and whose first sample has a dict second
component: the custom branch stacks the inputs into a single tensor with a
new leading batch dimension and returns the original targets as a plain
list, in order. -/
theorem custom_collate_custom (fuel : Nat) (s : List Nat) (d : List Int)
    (es : List (String × PyVal)) (ps : List (List Int × PyVal)) :
    custom_collate fuel (mkTensorPairBatch s ((d, .dict es) :: ps)) =
      .ok (.tuple [.tensor ((ps.length + 1) :: s) (d ++ (ps.map Prod.fst).flatten),
                   .list (((d, .dict es) :: ps).map Prod.snd)]) := by
  have hd : dispatchCond (mkTensorPairBatch s ((d, .dict es) :: ps)) = .ok true := rfl
  have hp : customBranchPairs (mkTensorPairBatch s ((d, .dict es) :: ps)) =
      .ok (((d, .dict es) :: ps).map fun q => (PyVal.tensor s q.1, q.2)) := by
    simpa [customBranchPairs, mkTensorPairBatch] using
      emap_map_ok (fun q : List Int × PyVal => PyVal.tuple [.tensor s q.1, q.2]) pyUnpack2
        (fun q => (PyVal.tensor s q.1, q.2)) ((d, .dict es) :: ps) (fun q _ => rfl)
  have hs := torch_stack_map s (fun q : List Int × PyVal => q.1) (d, .dict es) ps
  simp only [custom_collate, hd, okBind, if_true, hp, List.map_cons, List.map_map]
  simp only [List.map_cons] at hs
  simp only [Function.comp_def]
  rw [hs]
  simp

/-- Computation of custom_detection_collate on a batch of 2-tuples all of
whose second components are dicts. -/
theorem custom_detection_collate_dictBatch (fuel : Nat) (p : PyVal × List (String × PyVal))
    (ps : List (PyVal × List (String × PyVal))) :
    custom_detection_collate fuel (mkDictBatch (p :: ps)) =
      .ok (.tuple [.list ((p :: ps).map Prod.fst),
                   .list ((p :: ps).map fun q => PyVal.dict q.2)]) := by
  obtain ⟨a, es⟩ := p
  have hd : dispatchCond (mkDictBatch ((a, es) :: ps)) = .ok true := rfl
  have hp : customBranchPairs (mkDictBatch ((a, es) :: ps)) =
      .ok (((a, es) :: ps).map fun q => (q.1, PyVal.dict q.2)) := by
    simpa [customBranchPairs, mkDictBatch] using
      emap_map_ok (fun q : PyVal × List (String × PyVal) => PyVal.tuple [q.1, .dict q.2])
        pyUnpack2 (fun q => (q.1, PyVal.dict q.2)) ((a, es) :: ps) (fun q _ => rfl)
  simp [custom_detection_collate, hd, hp, List.map_map]

/-- Computation of custom_detection_collate on a batch of 2-tuples whose
inputs are tensors of one common shape and whose first sample has a dict
second component: the inputs stay a plain list, never stacked. -/
theorem custom_detection_collate_tensorPairBatch (fuel : Nat) (s : List Nat) (d : List Int)
    (es : List (String × PyVal)) (ps : List (List Int × PyVal)) :
    custom_detection_collate fuel (mkTensorPairBatch s ((d, .dict es) :: ps)) =
      .ok (.tuple [.list (((d, .dict es) :: ps).map fun q => PyVal.tensor s q.1),
                   .list (((d, .dict es) :: ps).map Prod.snd)]) := by
  have hd : dispatchCond (mkTensorPairBatch s ((d, .dict es) :: ps)) = .ok true := rfl
  have hp : customBranchPairs (mkTensorPairBatch s ((d, .dict es) :: ps)) =
      .ok (((d, .dict es) :: ps).map fun q => (PyVal.tensor s q.1, q.2)) := by
    simpa [customBranchPairs, mkTensorPairBatch] using
      emap_map_ok (fun q : List Int × PyVal => PyVal.tuple [.tensor s q.1, q.2]) pyUnpack2
        (fun q => (PyVal.tensor s q.1, q.2)) ((d, .dict es) :: ps) (fun q _ => rfl)
  simp [custom_detection_collate, hd, hp, List.map_map, Function.comp_def]

/-- C2: on a non-empty batch of 2-element tuples whose second elements are
all mappings (of arbitrary, possibly varying, per-sample contents),
custom_detection_collate returns exactly the list of the original inputs
and the list of the original per-sample mappings, unchanged and in batch
order. -/
theorem claim2_detection_returns_originals (fuel : Nat) (p : PyVal × List (String × PyVal))
    (ps : List (PyVal × List (String × PyVal))) :
    custom_detection_collate fuel (mkDictBatch (p :: ps)) =
      .ok (.tuple [.list ((p :: ps).map Prod.fst),
                   .list ((p :: ps).map fun q => PyVal.dict q.2)]) :=
  custom_detection_collate_dictBatch fuel p ps

/-- C3: on a non-empty batch of 2-element tuples whose first sample's
second element is a mapping, the dispatch test succeeds (so the
default-resolver else-branch is not taken) and custom_detection_collate
returns normally, whatever the per-sample mapping contents are. -/
theorem claim3_no_default_resolver (fuel : Nat) (a : PyVal) (es : List (String × PyVal))
    (ps : List (PyVal × PyVal)) :
    dispatchCond (mkPairBatch ((a, .dict es) :: ps)) = .ok true ∧
    custom_detection_collate fuel (mkPairBatch ((a, .dict es) :: ps)) =
      .ok (.tuple [.list (((a, .dict es) :: ps).map Prod.fst),
                   .list (((a, .dict es) :: ps).map Prod.snd)]) :=
  ⟨rfl, custom_detection_collate_custom fuel a es ps⟩

/-- C4 (counterexample): on a matched batch whose inputs are tensors of
unequal shapes, custom_collate does not return stacked inputs: it raises
the stacking shape-mismatch RuntimeError, while custom_detection_collate
returns normally on the same batch. -/
theorem claim4_counterexample :
    custom_collate 1 (.list [.tuple [.tensor [1] [0], .dict []],
                             .tuple [.tensor [2] [0, 0], .dict []]]) = .error .runtimeError ∧
    custom_detection_collate 1 (.list [.tuple [.tensor [1] [0], .dict []],
                                       .tuple [.tensor [2] [0, 0], .dict []]]) =
      .ok (.tuple [.list [.tensor [1] [0], .tensor [2] [0, 0]],
                   .list [.dict [], .dict []]]) ∧
    (Except.error PyErr.runtimeError : Except PyErr PyVal) ≠
      .ok (.tuple [.list [.tensor [1] [0], .tensor [2] [0, 0]],
                   .list [.dict [], .dict []]]) :=
  ⟨rfl, rfl, fun h => Except.noConfusion h⟩

/-- C4 (amended): on a matched batch of 2-tuples whose inputs are tensors
of one common shape, custom_collate stacks the inputs into a single tensor
with a new leading batch dimension, custom_detection_collate returns the
inputs as a plain list, and the two functions return the identical targets
list. -/
theorem claim4_stack_vs_list (fuel : Nat) (s : List Nat) (d : List Int)
    (es : List (String × PyVal)) (ps : List (List Int × PyVal)) :
    custom_collate fuel (mkTensorPairBatch s ((d, .dict es) :: ps)) =
      .ok (.tuple [.tensor ((ps.length + 1) :: s) (d ++ (ps.map Prod.fst).flatten),
                   .list (((d, .dict es) :: ps).map Prod.snd)]) ∧
    custom_detection_collate fuel (mkTensorPairBatch s ((d, .dict es) :: ps)) =
      .ok (.tuple [.list (((d, .dict es) :: ps).map fun q => PyVal.tensor s q.1),
                   .list (((d, .dict es) :: ps).map Prod.snd)]) :=
  ⟨custom_collate_custom fuel s d es ps,
   custom_detection_collate_tensorPairBatch fuel s d es ps⟩

/-- C5 (counterexample): on the batch [1, 2] the dispatch condition does
not hold — the first sample is not of length 2, having no length at all —
yet the custom functions do not return default_collate(batch): evaluating
len(batch[0]) raises TypeError, while default_collate collates the batch
into a 1-D tensor. -/
theorem claim5_counterexample :
    PyVal.isList (.list [.int 1, .int 2]) = true ∧
    custom_collate 1 (.list [.int 1, .int 2]) = .error .typeError ∧
    custom_detection_collate 1 (.list [.int 1, .int 2]) = .error .typeError ∧
    default_collate 1 (.list [.int 1, .int 2]) = .ok (.tensor [2] [1, 2]) ∧
    (Except.error PyErr.typeError : Except PyErr PyVal) ≠ .ok (.tensor [2] [1, 2]) :=
  ⟨rfl, rfl, rfl, rfl, fun h => Except.noConfusion h⟩

/-- C5 (amended): whenever the dispatch condition evaluates to false
without raising, both custom collation functions return exactly
default_collate(batch). -/
theorem claim5_delegates_to_default (fuel : Nat) (batch : PyVal)
    (h : dispatchCond batch = .ok false) :
    custom_collate fuel batch = default_collate fuel batch ∧
    custom_detection_collate fuel batch = default_collate fuel batch := by
  constructor <;> simp [custom_collate, custom_detection_collate, h]

/-- C5 (witness): a batch that is not a list, on which both custom
functions delegate to the default resolver. -/
theorem claim5_witness :
    custom_collate 1 (.int 0) = default_collate 1 (.int 0) ∧
    custom_detection_collate 1 (.int 0) = default_collate 1 (.int 0) :=
  claim5_delegates_to_default 1 (.int 0) rfl

/-- C8: applied to an empty list, both custom collation functions raise
IndexError while evaluating batch[0] in the dispatch test, for every fuel
bound — the default resolver is never consulted and no empty result is
returned. -/
theorem claim8_empty_batch_raises (fuel : Nat) :
    custom_collate fuel (.list []) = .error .indexError ∧
    custom_detection_collate fuel (.list []) = .error .indexError :=
  ⟨rfl, rfl⟩

/-- C10: the custom branch of both functions builds its result purely from
the original per-sample components: custom_detection_collate returns the
original inputs and the original targets themselves, in order, and
custom_collate returns a newly stacked tensor together with the original
targets themselves; the argument batch is not modified (the embedding of
both functions is a pure function of the batch value). -/
theorem claim10_no_mutation :
    (∀ (fuel : Nat) (a : PyVal) (es : List (String × PyVal)) (ps : List (PyVal × PyVal)),
      custom_detection_collate fuel (mkPairBatch ((a, .dict es) :: ps)) =
        .ok (.tuple [.list (((a, .dict es) :: ps).map Prod.fst),
                     .list (((a, .dict es) :: ps).map Prod.snd)])) ∧
    (∀ (fuel : Nat) (s : List Nat) (d : List Int) (es : List (String × PyVal))
        (ps : List (List Int × PyVal)),
      custom_collate fuel (mkTensorPairBatch s ((d, .dict es) :: ps)) =
        .ok (.tuple [.tensor ((ps.length + 1) :: s) (d ++ (ps.map Prod.fst).flatten),
                     .list (((d, .dict es) :: ps).map Prod.snd)])) :=
  ⟨fun fuel a es ps => custom_detection_collate_custom fuel a es ps,
   fun fuel s d es ps => custom_collate_custom fuel s d es ps⟩

/-- Exact characterization of when the dispatch test evaluates to true: the
batch is a list, its first element exists and has length 2, and that first
element's second item is a dict.  Only the first sample is consulted. -/
theorem dispatchCond_ok_true_iff (b : PyVal) :
    dispatchCond b = .ok true ↔
      (PyVal.isList b = true ∧ Except.bind (pyIndex b 0) pyLen = .ok 2 ∧
       ∃ x es, pyIndex b 0 = .ok x ∧ pyIndex x 1 = .ok (.dict es)) := by
  cases b with
  | list xs =>
    cases hx : pyIndex (.list xs) 0 with
    | error e => simp [dispatchCond, hx, PyVal.isList, Except.bind]
    | ok x =>
      cases hn : pyLen x with
      | error e => simp [dispatchCond, hx, hn, PyVal.isList, Except.bind]
      | ok n =>
        by_cases h2 : n = 2
        · subst h2
          cases hs : pyIndex x 1 with
          | error e => simp [dispatchCond, hx, hn, hs, PyVal.isList, Except.bind]
          | ok sv => simp [dispatchCond, hx, hn, hs, PyVal.isList, Except.bind,
              isDict_eq_true_iff]
        · simp [dispatchCond, hx, hn, h2, PyVal.isList, Except.bind]
  | tensor sh data => simp [dispatchCond, PyVal.isList]
  | int n => simp [dispatchCond, PyVal.isList]
  | str s2 => simp [dispatchCond, PyVal.isList]
  | tuple xs => simp [dispatchCond, PyVal.isList]
  | dict es => simp [dispatchCond, PyVal.isList]

/-- C1 (counterexample): the custom branch is not taken exactly when every
sample is a 2-element tuple — a batch whose second sample is a 3-tuple
still passes the dispatch test, which only inspects the first sample — and
on a batch satisfying the claimed precondition with non-tensor inputs,
custom_collate raises from torch.stack instead of returning a pair. -/
theorem claim1_counterexample :
    dispatchCond (.list [.tuple [.int 0, .dict []], .tuple [.int 1, .int 2, .int 3]]) =
      .ok true ∧
    ¬ (∀ v ∈ [PyVal.tuple [.int 0, .dict []], PyVal.tuple [.int 1, .int 2, .int 3]],
        ∃ a b, v = .tuple [a, b]) ∧
    custom_collate 1 (.list [.tuple [.int 0, .dict []], .tuple [.int 1, .dict []]]) =
      .error .typeError := by
  refine ⟨rfl, ?_, rfl⟩
  intro h
  rcases h (PyVal.tuple [.int 1, .int 2, .int 3]) (by simp) with ⟨a, b, hab⟩
  simp at hab

/-- C1 (amended): on a non-empty batch of 2-element tuples whose first
sample's second element is a mapping, both functions take the custom
branch; custom_detection_collate returns (inputs, list of per-sample
targets) in order, and custom_collate does so too when the inputs are
tensors of one common shape (stacking them); the custom branch is taken
exactly when the batch is a list whose first element has length 2 and has
a dict as its second item — later samples never enter the decision. -/
theorem claim1_custom_branch :
    (∀ (fuel : Nat) (a : PyVal) (es : List (String × PyVal)) (ps : List (PyVal × PyVal)),
      dispatchCond (mkPairBatch ((a, .dict es) :: ps)) = .ok true ∧
      custom_detection_collate fuel (mkPairBatch ((a, .dict es) :: ps)) =
        .ok (.tuple [.list (((a, .dict es) :: ps).map Prod.fst),
                     .list (((a, .dict es) :: ps).map Prod.snd)])) ∧
    (∀ (fuel : Nat) (s : List Nat) (d : List Int) (es : List (String × PyVal))
        (ps : List (List Int × PyVal)),
      custom_collate fuel (mkTensorPairBatch s ((d, .dict es) :: ps)) =
        .ok (.tuple [.tensor ((ps.length + 1) :: s) (d ++ (ps.map Prod.fst).flatten),
                     .list (((d, .dict es) :: ps).map Prod.snd)])) ∧
    (∀ b : PyVal, dispatchCond b = .ok true ↔
      (PyVal.isList b = true ∧ Except.bind (pyIndex b 0) pyLen = .ok 2 ∧
       ∃ x es, pyIndex b 0 = .ok x ∧ pyIndex x 1 = .ok (.dict es))) :=
  ⟨fun fuel a es ps => ⟨rfl, custom_detection_collate_custom fuel a es ps⟩,
   fun fuel s d es ps => custom_collate_custom fuel s d es ps,
   dispatchCond_ok_true_iff⟩

/-- C7 (counterexample): on the matched batch whose second sample has a
non-dict target, the singleton batch made of that second sample is not
matched, falls to the default resolver, and its components differ from the
corresponding elements of the full-batch result: the full batch keeps the
int target 7, the singleton run turns it into a 1-element tensor. -/
theorem claim7_counterexample :
    custom_detection_collate 3 (.list [.tuple [.tensor [1] [5], .dict []],
                                       .tuple [.tensor [1] [6], .int 7]]) =
      .ok (.tuple [.list [.tensor [1] [5], .tensor [1] [6]],
                   .list [.dict [], .int 7]]) ∧
    custom_detection_collate 3 (.list [.tuple [.tensor [1] [6], .int 7]]) =
      .ok (.tuple [.tensor [1, 1] [6], .tensor [1] [7]]) ∧
    pyIndex (.list [.dict [], .int 7]) 1 = .ok (.int 7) ∧
    pyIndex (.tensor [1] [7]) 0 = .ok (.tensor [] [7]) ∧
    PyVal.int 7 ≠ PyVal.tensor [] [7] :=
  ⟨rfl, rfl, rfl, rfl, fun h => PyVal.noConfusion h⟩

/-- C7 (amended): on a non-empty batch of 2-tuples all of whose second
elements are mappings, the i-th element of each component of the
full-batch result of custom_detection_collate is the sole element of the
corresponding component of custom_detection_collate on the singleton batch
made of the i-th sample. -/
theorem claim7_singleton_consistency (fuel : Nat) (p : PyVal × List (String × PyVal))
    (ps : List (PyVal × List (String × PyVal))) (i : Fin (p :: ps).length) :
    custom_detection_collate fuel (mkDictBatch (p :: ps)) =
      .ok (.tuple [.list ((p :: ps).map Prod.fst),
                   .list ((p :: ps).map fun q => PyVal.dict q.2)]) ∧
    custom_detection_collate fuel (mkDictBatch [(p :: ps).get i]) =
      .ok (.tuple [.list [((p :: ps).get i).1],
                   .list [PyVal.dict ((p :: ps).get i).2]]) ∧
    ((p :: ps).map Prod.fst).get? i.val = some ((p :: ps).get i).1 ∧
    ((p :: ps).map fun q => PyVal.dict q.2).get? i.val =
      some (PyVal.dict ((p :: ps).get i).2) := by
  refine ⟨custom_detection_collate_dictBatch fuel p ps, ?_, ?_, ?_⟩
  · exact custom_detection_collate_dictBatch fuel ((p :: ps).get i) []
  · rw [List.get?_map, List.get?_eq_get i.isLt]
    rfl
  · rw [List.get?_map, List.get?_eq_get i.isLt]
    rfl

/-- Observation triple the dispatch test could at most depend on: whether
the batch is a list, the result of taking the length of its first sample,
and whether the second item of its first sample is a dict. -/
def dispatchObs (b : PyVal) : Bool × Except PyErr Nat × Except PyErr Bool :=
  (b.isList,
   Except.bind (pyIndex b 0) pyLen,
   Except.bind (pyIndex b 0) fun f => Except.bind (pyIndex f 1) fun s => .ok s.isDict)

/-- Reconstruction of the dispatch test from the observation triple alone. -/
def dispatchRecon : Bool × Except PyErr Nat × Except PyErr Bool → Except PyErr Bool
  | (false, _, _) => .ok false
  | (true, lenR, dictR) => Except.bind lenR fun n => if n = 2 then dictR else .ok false

/-- Factorization of the dispatch test through the observation triple. -/
theorem dispatchCond_eq_recon (b : PyVal) : dispatchCond b = dispatchRecon (dispatchObs b) := by
  cases b with
  | list xs =>
    cases hx : pyIndex (.list xs) 0 with
    | error e => simp [dispatchCond, dispatchObs, dispatchRecon, hx, PyVal.isList, Except.bind]
    | ok x =>
      cases hn : pyLen x with
      | error e =>
        simp [dispatchCond, dispatchObs, dispatchRecon, hx, hn, PyVal.isList, Except.bind]
      | ok n =>
        by_cases h2 : n = 2
        · subst h2
          cases hs : pyIndex x 1 with
          | error e =>
            simp [dispatchCond, dispatchObs, dispatchRecon, hx, hn, hs, PyVal.isList,
              Except.bind]
          | ok sv =>
            simp [dispatchCond, dispatchObs, dispatchRecon, hx, hn, hs, PyVal.isList,
              Except.bind]
        · simp [dispatchCond, dispatchObs, dispatchRecon, hx, hn, h2, PyVal.isList, Except.bind]
  | tensor sh data => simp [dispatchCond, dispatchObs, dispatchRecon, PyVal.isList]
  | int n => simp [dispatchCond, dispatchObs, dispatchRecon, PyVal.isList]
  | str s2 => simp [dispatchCond, dispatchObs, dispatchRecon, PyVal.isList]
  | tuple xs => simp [dispatchCond, dispatchObs, dispatchRecon, PyVal.isList]
  | dict es => simp [dispatchCond, dispatchObs, dispatchRecon, PyVal.isList]

/-- C9: the branch decision is a function of the observation triple alone,
so any two batches agreeing on it take the same branch; in particular the
decision ignores everything after the first sample, and a batch whose
first sample is a 2-tuple with a dict second element is handled by the
custom branch no matter what the later samples are. -/
theorem claim9_dispatch_depends_only_on_head :
    (∀ b1 b2 : PyVal, dispatchObs b1 = dispatchObs b2 →
      dispatchCond b1 = dispatchCond b2) ∧
    (∀ (x : PyVal) (t1 t2 : List PyVal),
      dispatchCond (.list (x :: t1)) = dispatchCond (.list (x :: t2))) ∧
    (∀ (a : PyVal) (es : List (String × PyVal)) (rest : List PyVal),
      dispatchCond (.list (.tuple [a, .dict es] :: rest)) = .ok true) := by
  have hmain : ∀ b1 b2 : PyVal, dispatchObs b1 = dispatchObs b2 →
      dispatchCond b1 = dispatchCond b2 := by
    intro b1 b2 h
    rw [dispatchCond_eq_recon, dispatchCond_eq_recon, h]
  exact ⟨hmain, fun x t1 t2 => hmain _ _ rfl, fun a es rest => rfl⟩

/-- C9 (witness): two concrete batches with the same first sample but
different tails are dispatched identically. -/
theorem claim9_witness :
    dispatchCond (.list [.tuple [.int 0, .int 1], .int 5]) =
      dispatchCond (.list [.tuple [.int 0, .int 1]]) :=
  claim9_dispatch_depends_only_on_head.1 _ _ rfl

/-- Batch builder for the default-resolver claim: each sample is a 2-tuple
of a tensor input of common shape `si` and a mapping with fixed key list
`ks` whose value at key `k` is a tensor of the common per-key shape `sh k`
holding that sample's data. -/
def mkUniformMapBatch (si : List Nat) (sh : String → List Nat) (ks : List String)
    (rows : List (List Int × (String → List Int))) : PyVal :=
  .list (rows.map fun r => .tuple [.tensor si r.1,
    .dict (ks.map fun k => (k, .tensor (sh k) (r.2 k)))])

/-- Collating a non-empty uniform column of input tensors stacks them. -/
theorem default_collate_tensor_column (fuel : Nat) (s : List Nat)
    (r : List Int × (String → List Int)) (rows : List (List Int × (String → List Int))) :
    default_collate (fuel + 1) (.list ((r :: rows).map fun q => PyVal.tensor s q.1)) =
      .ok (.tensor ((rows.length + 1) :: s) (r.1 ++ (rows.map Prod.fst).flatten)) := by
  have hstk := torch_stack_map s (fun q : List Int × (String → List Int) => q.1) r rows
  simp [default_collate, pyIndex, pyToList]
  simpa using hstk

/-- Collating a non-empty uniform column of per-key value tensors stacks
them. -/
theorem default_collate_value_column (fuel : Nat) (sh : String → List Nat) (k : String)
    (r : List Int × (String → List Int)) (rows : List (List Int × (String → List Int))) :
    default_collate (fuel + 1) (.list ((r :: rows).map fun q => PyVal.tensor (sh k) (q.2 k))) =
      .ok (.tensor ((rows.length + 1) :: sh k)
        (r.2 k ++ (rows.map fun q => q.2 k).flatten)) := by
  have hstk := torch_stack_map (sh k) (fun q : List Int × (String → List Int) => q.2 k) r rows
  simp [default_collate, pyIndex, pyToList]
  simpa using hstk

/-- Collating a non-empty column of mappings with a common key list and
uniform per-key tensor shapes merges them into a single mapping of stacked
tensors, one entry per key. -/
theorem default_collate_dict_column (fuel : Nat) (sh : String → List Nat) (ks : List String)
    (r : List Int × (String → List Int)) (rows : List (List Int × (String → List Int))) :
    default_collate (fuel + 2)
        (.list ((r :: rows).map fun q =>
          PyVal.dict (ks.map fun k2 => (k2, PyVal.tensor (sh k2) (q.2 k2))))) =
      .ok (.dict (ks.map fun k => (k, PyVal.tensor ((rows.length + 1) :: sh k)
        (r.2 k ++ (rows.map fun q => q.2 k).flatten)))) := by
  show default_collate ((fuel + 1) + 1)
        (.list ((r :: rows).map fun q =>
          PyVal.dict (ks.map fun k2 => (k2, PyVal.tensor (sh k2) (q.2 k2))))) =
      .ok (.dict (ks.map fun k => (k, PyVal.tensor ((rows.length + 1) :: sh k)
        (r.2 k ++ (rows.map fun q => q.2 k).flatten))))
  generalize hm : fuel + 1 = m
  have H : ∀ k ∈ ks, (do
      let col ← emap (fun d => pyDictGet d k)
        (PyVal.dict (List.map (fun k2 => (k2, PyVal.tensor (sh k2) (r.2 k2))) ks) ::
          List.map (fun q =>
            PyVal.dict (List.map (fun k2 => (k2, PyVal.tensor (sh k2) (q.2 k2))) ks)) rows)
      let v ← default_collate m (PyVal.list col)
      Except.ok (k, v)) =
      Except.ok ((fun k => (k, PyVal.tensor ((rows.length + 1) :: sh k)
        (r.2 k ++ (List.map (fun q => q.2 k) rows).flatten))) k) := by
    intro k hk
    have hcolk := emap_map_ok
      (fun q : List Int × (String → List Int) =>
        PyVal.dict (List.map (fun k2 => (k2, PyVal.tensor (sh k2) (q.2 k2))) ks))
      (fun d => pyDictGet d k)
      (fun q => PyVal.tensor (sh k) (q.2 k)) (r :: rows)
      (fun q _ => by
        simp [pyDictGet, lookup_map_self (fun k2 => PyVal.tensor (sh k2) (q.2 k2)) ks k hk])
    simp only [List.map_cons] at hcolk
    rw [hcolk, okBind]
    have hT := default_collate_value_column fuel sh k r rows
    rw [hm] at hT
    simp only [List.map_cons] at hT
    rw [hT, okBind]
  simp only [default_collate, List.map_cons, pyIndex, List.get?, okBind, pyToList,
    List.map_map, Function.comp_def, List.map_id']
  rw [emap_ok _ _ ks H]
  rfl

/-- Collating a non-empty batch of 2-tuples transposes it positionally:
the result is the tuple of the collations of the two columns. -/
theorem default_collate_pair_transpose {α : Type} (m : Nat) (f g : α → PyVal) (r : α)
    (rows : List α) (v1 v2 : PyVal)
    (h1 : default_collate m (.list (f r :: rows.map f)) = .ok v1)
    (h2 : default_collate m (.list (g r :: rows.map g)) = .ok v2) :
    default_collate (m + 1)
        (.list ((r :: rows).map fun q => PyVal.tuple [f q, g q])) =
      .ok (.tuple [v1, v2]) := by
  have hr2 : List.range 2 = [0, 1] := rfl
  have hhead : pyIndex (PyVal.list (PyVal.tuple [f r, g r] ::
      List.map (fun q => PyVal.tuple [f q, g q]) rows)) 0 = .ok (PyVal.tuple [f r, g r]) := rfl
  have hpl : pyLen (PyVal.tuple [f r, g r]) = .ok 2 := rfl
  have hpi0 : pyIndex (PyVal.tuple [f r, g r]) 0 = .ok (f r) := rfl
  have hpi1 : pyIndex (PyVal.tuple [f r, g r]) 1 = .ok (g r) := rfl
  have hlens : emap pyLen (List.map (fun q => PyVal.tuple [f q, g q]) rows) =
      .ok (List.map (fun _ => 2) rows) :=
    emap_map_ok _ _ _ rows (fun q _ => rfl)
  have hc0 : emap (fun x => pyIndex x 0) (List.map (fun q => PyVal.tuple [f q, g q]) rows) =
      .ok (List.map f rows) :=
    emap_map_ok _ _ _ rows (fun q _ => rfl)
  have hc1 : emap (fun x => pyIndex x 1) (List.map (fun q => PyVal.tuple [f q, g q]) rows) =
      .ok (List.map g rows) :=
    emap_map_ok _ _ _ rows (fun q _ => rfl)
  have hall : (List.map (fun _ => (2 : Nat)) rows).all (fun x => x == 2) = true := by simp
  simp [default_collate, emap, pyToList, hhead, hpl, hpi0, hpi1, hlens, hc0, hc1,
    h1, h2, hr2, hall]

/-- C6: on a non-empty batch of samples each paired with a mapping of one
common key list and uniform per-key tensor shapes (and uniform-shape
tensor inputs), the default collation resolver merges the per-sample
mappings into one single mapping whose values are tensors stacked across
samples, one entry per key — not a list of per-sample mappings — and
stacks the inputs. -/
theorem claim6_default_merges_mappings (fuel : Nat) (si : List Nat)
    (sh : String → List Nat) (ks : List String) (r : List Int × (String → List Int))
    (rows : List (List Int × (String → List Int))) :
    default_collate (fuel + 3) (mkUniformMapBatch si sh ks (r :: rows)) =
      .ok (.tuple [
        .tensor ((rows.length + 1) :: si) (r.1 ++ (rows.map Prod.fst).flatten),
        .dict (ks.map fun k => (k, PyVal.tensor ((rows.length + 1) :: sh k)
          (r.2 k ++ (rows.map fun q => q.2 k).flatten)))]) := by
  have h1 : default_collate (fuel + 2)
      (.list (PyVal.tensor si r.1 :: rows.map fun q => PyVal.tensor si q.1)) =
      .ok (.tensor ((rows.length + 1) :: si) (r.1 ++ (rows.map Prod.fst).flatten)) :=
    default_collate_tensor_column (fuel + 1) si r rows
  have h2 : default_collate (fuel + 2)
      (.list (PyVal.dict (ks.map fun k2 => (k2, PyVal.tensor (sh k2) (r.2 k2))) ::
        rows.map fun q => PyVal.dict (ks.map fun k2 => (k2, PyVal.tensor (sh k2) (q.2 k2))))) =
      .ok (.dict (ks.map fun k => (k, PyVal.tensor ((rows.length + 1) :: sh k)
        (r.2 k ++ (rows.map fun q => q.2 k).flatten)))) :=
    default_collate_dict_column fuel sh ks r rows
  exact default_collate_pair_transpose (fuel + 2) (fun q => PyVal.tensor si q.1)
    (fun q => PyVal.dict (ks.map fun k2 => (k2, PyVal.tensor (sh k2) (q.2 k2))))
    r rows _ _ h1 h2
